import Mathlib

/-!
# `NativeIO.madvise` (upserve/uppend): page-aligned memory advice

Shallow embedding of `src/nativeIO/c/com_upserve_uppend_blobs_NativeIO.c`,
the single JNI function `Java_com_upserve_uppend_blobs_NativeIO_madvise`.

Conventions of the embedding (LP64 platform, two's complement):

* a C integer object that takes part in the address arithmetic is the natural
  number of its bit pattern; `int` objects are reduced modulo `2^32`,
  `long long`, `size_t` and `void *` objects modulo `2^64`, and every C
  operator is a function on bit patterns that wraps;
* the integers that are only compared and printed (the `jint` advice value,
  the `int` result of the system call, the advice constants) and the values
  the environment hands over (`jlong` capacity, `int` page size) are signed
  values in `Int`;
* every interaction of the function with the JVM (`JNIEnv`), libc and the
  kernel is recorded, in program order, as an `Event`; the function returns
  `void`, so the list of events is everything it does;
* the five advice constants of `<sys/mman.h>`, `strerror`, `errno`,
  `getpagesize` and the return value of the `madvise` system call are not
  part of the repository and are fields of the environment `Env`.
-/

namespace NativeIO

/-! ## C integer operators on bit patterns -/

/-- Two's-complement bit pattern, `w` bits wide, of a signed value. -/
def bits (w : Nat) (i : Int) : Nat := (i % (2 : Int) ^ w).toNat

/-- C `a - b` on `int` operands. -/
def int_sub (a b : Nat) : Nat := (a % 2 ^ 32 + (2 ^ 32 - b % 2 ^ 32)) % 2 ^ 32

/-- C `~a` on an `int` operand. -/
def int_not (a : Nat) : Nat := 2 ^ 32 - 1 - a % 2 ^ 32

/-- The usual arithmetic conversion `int` to `long long`: sign extension. -/
def int_to_llong (a : Nat) : Nat :=
  if a % 2 ^ 32 < 2 ^ 31 then a % 2 ^ 32 else a % 2 ^ 32 + (2 ^ 64 - 2 ^ 32)

/-- C `a + b` on 64-bit operands. -/
def llong_add (a b : Nat) : Nat := (a % 2 ^ 64 + b % 2 ^ 64) % 2 ^ 64

/-- C `a - b` on 64-bit operands. -/
def llong_sub (a b : Nat) : Nat := (a % 2 ^ 64 + (2 ^ 64 - b % 2 ^ 64)) % 2 ^ 64

/-- C `a & b` on 64-bit operands. -/
def llong_and (a b : Nat) : Nat := (a % 2 ^ 64) &&& (b % 2 ^ 64)

/-- The cast `(size_t) x` of a `jlong` (signed 64-bit) value. -/
def jlong_to_size_t (x : Int) : Nat := bits 64 x

/-! ## Lines 71-80: the region handed to the system call -/

/-- Lines 74-80 of the source, with `page` the bit pattern of the `int`
returned by `getpagesize()`, `p` the buffer address and `size` the `size_t`
capacity:

```c
long long start = (long long) p;
start = start & (~(page-1));
long long end = start + size;
end = (end + page-1)&(~(page-1));
size = (end-start);
```

The result is the pair `(start, size)` of the final values. -/
def alignedRegion (page p size : Nat) : Nat × Nat :=
  let mask := int_to_llong (int_not (int_sub page 1))
  let start := p % 2 ^ 64
  let start := llong_and start mask
  let end_ := llong_add start size
  let end_ := llong_and (llong_sub (llong_add end_ (int_to_llong page)) 1) mask
  let size := llong_sub end_ start
  (start, size)

/-! ## The JNI function -/

/-- The Java exception classes the function looks up with `FindClass`. -/
inductive JClass
  | NullPointerException
  | IOException
  | IllegalArgumentException
  deriving DecidableEq, Repr

/-- The two object arguments of the native method. -/
inductive JArg
  | buffer
  | advice
  deriving DecidableEq, Repr

/-- What the JVM answers about the `buffer` object: `address` is the result of
`GetDirectBufferAddress` (`0` is `NULL`), `capacity` the `jlong` result of
`GetDirectBufferCapacity`. -/
structure DirectBuffer where
  address : Nat
  capacity : Int
  deriving DecidableEq, Repr

/-- The `NativeIO.Advice` object: its `int` field `value`. -/
structure Advice where
  value : Int
  deriving DecidableEq, Repr

/-- Everything the function uses that the repository does not define: the
advice constants of `<sys/mman.h>`, the result of `getpagesize()`, `errno`
(taken as unchanged during the call), `strerror`, and the value the `madvise`
system call returns for given arguments. -/
structure Env where
  MADV_NORMAL : Int
  POSIX_MADV_SEQUENTIAL : Int
  POSIX_MADV_RANDOM : Int
  POSIX_MADV_WILLNEED : Int
  POSIX_MADV_DONTNEED : Int
  getpagesize : Int
  errno : Int
  strerror : Int → String
  madvise : Nat → Nat → Int → Int

/-- One call made by the function to the JVM, to libc or to the kernel.
`IsSameObject a` is `IsSameObject(env, a, NULL)`. -/
inductive Event
  | FindClass (name : String)
  | IsSameObject (obj : JArg)
  | GetObjectClass
  | GetFieldID (name : String) (sig : String)
  | GetIntField
  | GetDirectBufferAddress
  | GetDirectBufferCapacity
  | strerror
  | getpagesize
  | madvise (start : Nat) (size : Nat) (advice : Int)
  | ThrowNew (cls : JClass) (msg : String)
  deriving DecidableEq, Repr

/-- The conversion `%d` of `sprintf` for an `int`. -/
def fmt_d (v : Int) : String :=
  if v < 0 then "-" ++ Nat.repr v.natAbs else Nat.repr v.natAbs

/-- Value of a string of decimal digits, most significant first. -/
def readDigits (cs : List Char) : Nat :=
  cs.foldl (fun a c => 10 * a + (c.toNat - 48)) 0

/-- Reading back a decimal numeral with an optional leading minus sign. -/
def read_d (s : String) : Int :=
  match s.data with
  | '-' :: cs => -((readDigits cs : Nat) : Int)
  | cs => ((readDigits cs : Nat) : Int)

/-- Lines 36-57: the `switch` over `intAdvice`; `none` is the `default` case. -/
def osAdviceOf (env : Env) (intAdvice : Int) : Option Int :=
  if intAdvice = 0 then some env.MADV_NORMAL
  else if intAdvice = 1 then some env.POSIX_MADV_SEQUENTIAL
  else if intAdvice = 2 then some env.POSIX_MADV_RANDOM
  else if intAdvice = 3 then some env.POSIX_MADV_WILLNEED
  else if intAdvice = 4 then some env.POSIX_MADV_DONTNEED
  else none

/-- Lines 17-19: the three class lookups that open the function. -/
def findClasses : List Event :=
  [Event.FindClass "java/lang/NullPointerException",
   Event.FindClass "java/io/IOException",
   Event.FindClass "java/lang/IllegalArgumentException"]

/-- Lines 32-34: reading the field `value` of the advice object. -/
def readAdvice : List Event :=
  [Event.GetObjectClass, Event.GetFieldID "value" "I", Event.GetIntField]

/-- Lines 15-91: the native method. A `jobject` argument is `none` when it is
the null reference. The result is the sequence of calls the function makes;
it returns `void` on every path. -/
def Java_com_upserve_uppend_blobs_NativeIO_madvise (env : Env)
    (buffer : Option DirectBuffer) (advice : Option Advice) : List Event :=
  match buffer with
  | none =>
    findClasses ++ [Event.IsSameObject JArg.buffer,
      Event.ThrowNew JClass.NullPointerException "buffer argument can not be null"]
  | some buf =>
    match advice with
    | none =>
      findClasses ++ [Event.IsSameObject JArg.buffer, Event.IsSameObject JArg.advice,
        Event.ThrowNew JClass.NullPointerException "advice argument can not be null"]
    | some adv =>
      let t := findClasses ++ [Event.IsSameObject JArg.buffer, Event.IsSameObject JArg.advice]
        ++ readAdvice
      let intAdvice := adv.value
      match osAdviceOf env intAdvice with
      | none =>
        t ++ [Event.ThrowNew JClass.IllegalArgumentException
          ("invalid advice value: '" ++ fmt_d intAdvice ++ "'")]
      | some osAdvice =>
        let t := t ++ [Event.GetDirectBufferAddress]
        let p := buf.address
        if p = 0 then
          t ++ [Event.strerror, Event.ThrowNew JClass.IOException (env.strerror env.errno)]
        else
          let t := t ++ [Event.GetDirectBufferCapacity]
          let size := jlong_to_size_t buf.capacity
          if size ≤ 0 then
            t ++ [Event.strerror, Event.ThrowNew JClass.IOException (env.strerror env.errno)]
          else
            let t := t ++ [Event.getpagesize]
            let page := bits 32 env.getpagesize
            let r := alignedRegion page p size
            let result := env.madvise r.1 r.2 osAdvice
            let t := t ++ [Event.madvise r.1 r.2 osAdvice]
            if result ≠ 0 then
              t ++ [Event.ThrowNew JClass.IOException
                ("system madvice call failed: '" ++ fmt_d result ++ "'")]
            else t

/-- The region computed on lines 71-80 for a buffer in an environment. -/
def computedRegion (env : Env) (buf : DirectBuffer) : Nat × Nat :=
  alignedRegion (bits 32 env.getpagesize) buf.address (jlong_to_size_t buf.capacity)

/-- What the JVM can answer about one object (JNI specification of
`GetDirectBufferAddress` and `GetDirectBufferCapacity`; the argument is
declared a `java.nio.MappedByteBuffer` on line 13): the address is a 64-bit
pointer, the capacity a `jlong`, and the capacity is negative (`-1`) only for
an object that is not a direct buffer, for which the address is `NULL`. -/
def JniAnswers (b : DirectBuffer) : Prop :=
  b.address < 2 ^ 64 ∧ b.capacity < 2 ^ 63 ∧ (b.capacity < 0 → b.address = 0)

instance (b : DirectBuffer) : Decidable (JniAnswers b) := by
  unfold JniAnswers; infer_instance

/-! ## Observations on a call -/

/-- The `madvise` system calls of a trace, as `(start, size, advice)`. -/
def osCalls : List Event → List (Nat × Nat × Int)
  | [] => []
  | Event.madvise s n a :: t => (s, n, a) :: osCalls t
  | _ :: t => osCalls t

/-- The exceptions raised in a trace, as `(class, message)`. -/
def thrown : List Event → List (JClass × String)
  | [] => []
  | Event.ThrowNew c m :: t => (c, m) :: thrown t
  | _ :: t => thrown t

/-- A trace stops short of every step after the presence checks: the advice
field is not read, the buffer address and capacity are not queried, the page
size is not asked for and no system call is made. -/
def Untouched (t : List Event) : Prop :=
  Event.GetIntField ∉ t ∧ Event.GetDirectBufferAddress ∉ t
    ∧ Event.GetDirectBufferCapacity ∉ t ∧ Event.getpagesize ∉ t ∧ osCalls t = []

instance (t : List Event) : Decidable (Untouched t) := by
  unfold Untouched; infer_instance

/-- An environment for evaluating the function: the Linux values of the five
constants, 4 KiB pages, `errno = EINVAL`, and a system call that returns `r`
whatever its arguments. -/
def sampleEnv (r : Int) : Env where
  MADV_NORMAL := 0
  POSIX_MADV_SEQUENTIAL := 2
  POSIX_MADV_RANDOM := 1
  POSIX_MADV_WILLNEED := 3
  POSIX_MADV_DONTNEED := 4
  getpagesize := 4096
  errno := 22
  strerror := fun e => if e = 22 then "Invalid argument" else "Unknown error"
  madvise := fun _ _ _ => r

/-! ## The aligned region in the words of the specification -/

/-- Largest multiple of `page` that is at most `x`. -/
def pageFloor (page x : Nat) : Nat := x / page * page

/-- Smallest multiple of `page` that is at least `x`. -/
def pageCeil (page x : Nat) : Nat := (x + page - 1) / page * page

/-- The reference aligned region of the specification, section 3:
`start = page-floor(base)`, `size = page-ceil(base + length) - start`. -/
def alignedRegionSpec (page base length : Nat) : Nat × Nat :=
  (pageFloor page base, pageCeil page (base + length) - pageFloor page base)

/-! ## Arithmetic of the rounding -/

/-- Masking a 64-bit pattern with `2^64 - 2^k` clears its `k` low bits. -/
theorem land_high_mask (x k : Nat) (hk : k ≤ 64) (hx : x < 2 ^ 64) :
    x &&& (2 ^ 64 - 2 ^ k) = x - x % 2 ^ k := by
  have h1 : 2 ^ 64 - 2 ^ k = 2 ^ k * (2 ^ (64 - k) - 1) := by
    have h2 : (2 : Nat) ^ 64 = 2 ^ k * 2 ^ (64 - k) := by
      rw [← Nat.pow_add]; congr 1; omega
    rw [Nat.mul_sub, Nat.mul_one, ← h2]
  have h3 : x - x % 2 ^ k = 2 ^ k * (x / 2 ^ k) := by
    have := Nat.div_add_mod x (2 ^ k)
    omega
  rw [h1, h3]
  apply Nat.eq_of_testBit_eq
  intro i
  rw [Nat.testBit_and, Nat.testBit_mul_pow_two, Nat.testBit_mul_pow_two,
    Nat.testBit_two_pow_sub_one, ← Nat.shiftRight_eq_div_pow, Nat.testBit_shiftRight]
  by_cases hik : k ≤ i
  · have e : k + (i - k) = i := by omega
    rw [e]
    by_cases hi : i < 64
    · simp [hik]
      intro _; omega
    · have hxi : x.testBit i = false :=
        Nat.testBit_lt_two_pow (lt_of_lt_of_le hx (Nat.pow_le_pow_right (by decide) (by omega)))
      simp [hxi]
  · simp [hik]

/-- The mask `~(page-1)`, widened to `long long`, for a power-of-two page. -/
theorem mask_pow_two (k : Nat) (hk : k ≤ 30) :
    int_to_llong (int_not (int_sub (2 ^ k) 1)) = 2 ^ 64 - 2 ^ k := by
  interval_cases k <;> decide

/-- Widening a power-of-two page size to `long long` leaves it unchanged. -/
theorem page_widen (k : Nat) (hk : k ≤ 30) : int_to_llong (2 ^ k) = 2 ^ k := by
  interval_cases k <;> decide

/-- The C expression `x & mask` for the mask of a power-of-two page. -/
theorem llong_and_mask (x k : Nat) (hk : k ≤ 30) :
    llong_and x (2 ^ 64 - 2 ^ k) = x % 2 ^ 64 - x % 2 ^ 64 % 2 ^ k := by
  unfold llong_and
  have hpos : 0 < 2 ^ k := Nat.pow_pos (by decide)
  have hm : (2 ^ 64 - 2 ^ k) % 2 ^ 64 = 2 ^ 64 - 2 ^ k :=
    Nat.mod_eq_of_lt (by omega)
  rw [hm, land_high_mask _ k (by omega) (Nat.mod_lt _ (by decide))]

/-- Closed form of lines 74-80 for a power-of-two page: the start is the
address rounded down, the size is the capacity rounded up (modulo `2^64`). -/
theorem alignedRegion_pow_two (k p n : Nat) (hk : k ≤ 30) (hp : p < 2 ^ 64)
    (hn : n < 2 ^ 64) :
    alignedRegion (2 ^ k) p n
      = (p - p % 2 ^ k, ((n + 2 ^ k - 1) / 2 ^ k * 2 ^ k) % 2 ^ 64) := by
  unfold alignedRegion
  simp only [mask_pow_two k hk, page_widen k hk, llong_and_mask _ k hk]
  unfold llong_add llong_sub
  have hP : 0 < 2 ^ k := Nat.pow_pos (by decide)
  have hPle : 2 ^ k ≤ 2 ^ 30 := Nat.pow_le_pow_right (by decide) hk
  have hdvd : 2 ^ k ∣ 2 ^ 64 := Nat.pow_dvd_pow 2 (by omega)
  generalize 2 ^ k = P at *
  simp only [Nat.mod_eq_of_lt hp, Nat.mod_mod]
  refine Prod.ext rfl ?_
  show ((((((p - p % P) % 2 ^ 64 + n % 2 ^ 64) % 2 ^ 64 + P % 2 ^ 64) % 2 ^ 64
      + (2 ^ 64 - 1 % 2 ^ 64)) % 2 ^ 64
    - ((((p - p % P) % 2 ^ 64 + n % 2 ^ 64) % 2 ^ 64 + P % 2 ^ 64) % 2 ^ 64
      + (2 ^ 64 - 1 % 2 ^ 64)) % 2 ^ 64 % P) % 2 ^ 64
    + (2 ^ 64 - (p - p % P) % 2 ^ 64)) % 2 ^ 64 = (n + P - 1) / P * P % 2 ^ 64
  have hsle : p - p % P ≤ p := Nat.sub_le _ _
  have hsP : (p - p % P) % P = 0 := Nat.sub_mod_eq_zero_of_mod_eq (by simp)
  generalize p - p % P = s at hsle hsP ⊢
  generalize he1 : ((((s % 2 ^ 64 + n % 2 ^ 64) % 2 ^ 64 + P % 2 ^ 64) % 2 ^ 64
      + (2 ^ 64 - 1 % 2 ^ 64)) % 2 ^ 64) = e1
  have h1 : e1 = (s + n + P - 1) % 2 ^ 64 := by omega
  have h2 : e1 % P = (s + n + P - 1) % P := by
    rw [h1]; exact Nat.mod_mod_of_dvd _ hdvd
  have h3 : (s + n + P - 1) % P = (n + P - 1) % P := by
    obtain ⟨a, ha⟩ := Nat.dvd_of_mod_eq_zero hsP
    have : s + n + P - 1 = n + P - 1 + P * a := by omega
    rw [this, Nat.add_mul_mod_self_left]
  have h4 := Nat.div_add_mod (n + P - 1) P
  have h5 : e1 % P ≤ e1 := Nat.mod_le _ _
  rw [h2, h3] at h5
  rw [h2, h3, Nat.mul_comm]
  generalize P * ((n + P - 1) / P) = C at h4 ⊢
  generalize (n + P - 1) % P = r at h4 h5 ⊢
  omega

/-! ## Decimal output -/

/-- A decimal digit character carries its digit. -/
theorem digitChar_value (m : Nat) (hm : m < 10) : (Nat.digitChar m).toNat - 48 = m := by
  interval_cases m <;> rfl

/-- A decimal digit character is not the minus sign. -/
theorem digitChar_ne_minus (m : Nat) (hm : m < 10) : Nat.digitChar m ≠ '-' := by
  interval_cases m <;> decide

/-- Reading the digits produced for `n` in front of `ds` is reading `ds`
from the value `n`. -/
theorem foldl_toDigitsCore (fuel : Nat) : ∀ (n : Nat) (ds : List Char), n < fuel →
    (Nat.toDigitsCore 10 fuel n ds).foldl (fun a c => 10 * a + (c.toNat - 48)) 0
      = ds.foldl (fun a c => 10 * a + (c.toNat - 48)) n := by
  induction fuel with
  | zero => intro n ds h; omega
  | succ fuel ih =>
    intro n ds h
    have hd := digitChar_value (n % 10) (Nat.mod_lt _ (by decide))
    unfold Nat.toDigitsCore
    by_cases h0 : n / 10 = 0
    · simp only [h0, if_true, List.foldl_cons, hd]
      congr 1; omega
    · simp only [h0, if_false]
      rw [ih (n / 10) _ (by omega)]
      simp only [List.foldl_cons, hd]
      congr 1; omega

/-- The digits produced for a number start with a decimal digit character. -/
theorem head_toDigitsCore (fuel : Nat) : ∀ (n : Nat) (ds : List Char),
    ∃ m tl, m < 10 ∧ Nat.toDigitsCore 10 (fuel + 1) n ds = Nat.digitChar m :: tl := by
  induction fuel with
  | zero =>
    intro n ds
    refine ⟨n % 10, ds, Nat.mod_lt _ (by decide), ?_⟩
    by_cases h0 : n / 10 = 0 <;> simp [Nat.toDigitsCore, h0]
  | succ fuel ih =>
    intro n ds
    unfold Nat.toDigitsCore
    by_cases h0 : n / 10 = 0
    · exact ⟨n % 10, ds, Nat.mod_lt _ (by decide), by simp [h0]⟩
    · simp only [h0, if_false]
      exact ih _ _

/-- The text printed by `%d` reads back as the value printed. -/
theorem read_d_fmt_d (v : Int) : read_d (fmt_d v) = v := by
  unfold fmt_d
  by_cases hv : v < 0
  · simp only [hv, if_true]
    have : ("-" ++ Nat.repr v.natAbs).data = '-' :: Nat.toDigits 10 v.natAbs := rfl
    unfold read_d
    rw [this]
    simp only [readDigits, Nat.toDigits]
    rw [foldl_toDigitsCore _ _ _ (Nat.lt_succ_self _)]
    simp only [List.foldl_nil]
    omega
  · simp only [hv, if_false]
    obtain ⟨m, tl, hm, htl⟩ := head_toDigitsCore v.natAbs v.natAbs []
    have hdata : (Nat.repr v.natAbs).data = Nat.digitChar m :: tl := htl
    have hne := digitChar_ne_minus m hm
    have hfold := foldl_toDigitsCore (v.natAbs + 1) v.natAbs [] (Nat.lt_succ_self _)
    rw [htl] at hfold
    unfold read_d
    rw [hdata]
    split
    · next cs heq => exact absurd (List.cons.inj heq).1 hne
    · next cs _ =>
      simp only [readDigits, hfold, List.foldl_nil]
      omega
/-! ## The shape of a call -/

/-- A call that passes every check issues exactly one system call, for the
computed region and the translated constant. -/
theorem osCalls_of_valid (env : Env) (buf : DirectBuffer) (adv : Advice) (os : Int)
    (hos : osAdviceOf env adv.value = some os) (hp : buf.address ≠ 0)
    (hsz : jlong_to_size_t buf.capacity ≠ 0) :
    osCalls (Java_com_upserve_uppend_blobs_NativeIO_madvise env (some buf) (some adv))
      = [((computedRegion env buf).1, (computedRegion env buf).2, os)] := by
  simp only [Java_com_upserve_uppend_blobs_NativeIO_madvise, hos, hp, if_false,
    Nat.le_zero, hsz, computedRegion, findClasses, readAdvice]
  split <;> simp [osCalls]

/-- A call that passes every check raises an exception exactly when the
system call returns a non-zero value. -/
theorem thrown_of_valid (env : Env) (buf : DirectBuffer) (adv : Advice) (os : Int)
    (hos : osAdviceOf env adv.value = some os) (hp : buf.address ≠ 0)
    (hsz : jlong_to_size_t buf.capacity ≠ 0) :
    thrown (Java_com_upserve_uppend_blobs_NativeIO_madvise env (some buf) (some adv))
      = if env.madvise (computedRegion env buf).1 (computedRegion env buf).2 os ≠ 0 then
          [(JClass.IOException, "system madvice call failed: '"
            ++ fmt_d (env.madvise (computedRegion env buf).1 (computedRegion env buf).2 os)
            ++ "'")]
        else [] := by
  simp only [Java_com_upserve_uppend_blobs_NativeIO_madvise, hos, hp, if_false,
    Nat.le_zero, hsz, computedRegion, findClasses, readAdvice]
  split <;> simp [thrown]

/-- The `switch` accepts exactly the values `0..4`. -/
theorem osAdviceOf_isSome (env : Env) (v : Int) :
    (osAdviceOf env v).isSome = true ↔ 0 ≤ v ∧ v ≤ 4 := by
  unfold osAdviceOf
  constructor
  · intro h
    split_ifs at h <;> first | omega | simp at h
  · intro h
    have : v = 0 ∨ v = 1 ∨ v = 2 ∨ v = 3 ∨ v = 4 := by omega
    rcases this with h | h | h | h | h <;> simp [h]

/-- The `size_t` bit pattern of a capacity in `1 .. 2^64 - 1` is the capacity. -/
theorem size_of_capacity (c : Int) (h1 : 1 ≤ c) (h2 : c < 2 ^ 64) :
    jlong_to_size_t c = c.toNat := by
  unfold jlong_to_size_t bits
  rw [Int.emod_eq_of_lt (by omega) (by omega)]

/-- The `int` bit pattern of a power-of-two page size. -/
theorem bits_page (k : Nat) (hk : k ≤ 30) : bits 32 ((2 : Int) ^ k) = 2 ^ k := by
  interval_cases k <;> decide

/-- Rounding up to a multiple of a positive page size: the result is a
multiple, is at least the argument, and exceeds it by less than a page. -/
theorem pageCeil_spec (P n : Nat) (hP : 0 < P) :
    P ∣ pageCeil P n ∧ n ≤ pageCeil P n ∧ pageCeil P n < n + P := by
  unfold pageCeil
  have h := Nat.div_add_mod (n + P - 1) P
  have hr := Nat.mod_lt (n + P - 1) hP
  rw [Nat.mul_comm] at h
  refine ⟨Dvd.intro_left _ rfl, ?_, ?_⟩ <;> omega

/-- The system call of a valid request on a power-of-two page: the start is
the address rounded down and the size is the capacity rounded up. -/
theorem osCalls_pow_two (env : Env) (buf : DirectBuffer) (adv : Advice) (k : Nat)
    (hk : k ≤ 30) (hpage : env.getpagesize = 2 ^ k)
    (hadv : 0 ≤ adv.value ∧ adv.value ≤ 4)
    (hp0 : buf.address ≠ 0) (hp : buf.address < 2 ^ 64)
    (hlen : 1 ≤ buf.capacity) (hcap : buf.capacity < 2 ^ 64) :
    ∃ os, osAdviceOf env adv.value = some os ∧
      osCalls (Java_com_upserve_uppend_blobs_NativeIO_madvise env (some buf) (some adv))
        = [(buf.address - buf.address % 2 ^ k,
            pageCeil (2 ^ k) buf.capacity.toNat % 2 ^ 64, os)] := by
  obtain ⟨os, hos⟩ := Option.isSome_iff_exists.mp ((osAdviceOf_isSome env adv.value).mpr hadv)
  have hsz := size_of_capacity buf.capacity hlen hcap
  have hn : buf.capacity.toNat < 2 ^ 64 := by omega
  refine ⟨os, hos, ?_⟩
  rw [osCalls_of_valid env buf adv os hos hp0 (by rw [hsz]; omega)]
  simp only [computedRegion, hpage, bits_page k hk, hsz,
    alignedRegion_pow_two k _ _ hk hp hn, pageCeil]

/-! ## Claims about the issued region -/

/-- C1, evaluated on the code: with 4 KiB pages, a buffer at address
`0x7f0000000800` of capacity `0x1000` is advised with start `0x7f0000000000`
and size `0x1000`; the issued region ends at `0x7f0000001000`, before the end
`0x7f0000001800` of the requested range. -/
theorem C1_issued_region_stops_before_end :
    osCalls (Java_com_upserve_uppend_blobs_NativeIO_madvise (sampleEnv 0)
        (some ⟨0x7f0000000800, 0x1000⟩) (some ⟨0⟩))
      = [(0x7f0000000000, 0x1000, 0)]
    ∧ 0x7f0000000000 + 0x1000 < 0x7f0000000800 + 0x1000 := by
  decide

/-- C2, evaluated on the code: with page size `0x1000`, base `0x1001` and
length `0x1000` the reference aligned region is start `0x1000`, size `0x2000`,
while the region passed to the system call is start `0x1000`, size `0x1000`. -/
theorem C2_issued_region_differs_from_reference :
    alignedRegionSpec 0x1000 0x1001 0x1000 = (0x1000, 0x2000)
    ∧ osCalls (Java_com_upserve_uppend_blobs_NativeIO_madvise (sampleEnv 0)
        (some ⟨0x1001, 0x1000⟩) (some ⟨0⟩))
      = [(0x1000, 0x1000, 0)] := by
  decide

/-- The unsigned test `size <= 0` of line 66 alone does not catch a negative
capacity: were the capacity query to answer `-1` for a resolved address
`0x1000`, which `JniAnswers` excludes, no exception would be raised and the
system call would be issued with size `0`. -/
theorem size_test_passes_negative_capacity :
    ¬ JniAnswers ⟨0x1000, -1⟩
    ∧ osCalls (Java_com_upserve_uppend_blobs_NativeIO_madvise (sampleEnv 0)
        (some ⟨0x1000, -1⟩) (some ⟨0⟩))
      = [(0x1000, 0, 0)]
    ∧ thrown (Java_com_upserve_uppend_blobs_NativeIO_madvise (sampleEnv 0)
        (some ⟨0x1000, -1⟩) (some ⟨0⟩)) = [] := by
  decide

/-- C8: for a valid request on a power-of-two page size `2^k`, with no 64-bit
overflow, the region passed to the system call has
`start = p & ~(pageSize-1) = p - p mod pageSize`, so `start ≤ p` and
`p - start < pageSize`; `start` and `size` are multiples of the page size and
`size` is at least the requested length. -/
theorem C8_rounding_expands_and_stays_aligned (env : Env) (buf : DirectBuffer)
    (adv : Advice) (k : Nat) (hk : k ≤ 30) (hpage : env.getpagesize = 2 ^ k)
    (hadv : 0 ≤ adv.value ∧ adv.value ≤ 4)
    (hp0 : buf.address ≠ 0) (hlen : 1 ≤ buf.capacity)
    (hno : (buf.address : Int) + buf.capacity + 2 ^ k ≤ 2 ^ 64) :
    ∃ start size os,
      osCalls (Java_com_upserve_uppend_blobs_NativeIO_madvise env (some buf) (some adv))
        = [(start, size, os)]
      ∧ start = buf.address &&& (2 ^ 64 - 1 - (2 ^ k - 1))
      ∧ start = buf.address - buf.address % 2 ^ k
      ∧ start ≤ buf.address ∧ buf.address - start < 2 ^ k
      ∧ 2 ^ k ∣ start ∧ 2 ^ k ∣ size
      ∧ buf.capacity ≤ (size : Int) := by
  have hP : 0 < 2 ^ k := Nat.pow_pos (by decide)
  have hPi : (0 : Int) < 2 ^ k := by positivity
  have hp : buf.address < 2 ^ 64 := by omega
  have hcap : buf.capacity < 2 ^ 64 := by omega
  obtain ⟨os, -, hcalls⟩ := osCalls_pow_two env buf adv k hk hpage hadv hp0 hp hlen hcap
  obtain ⟨hc1, hc2, hc3⟩ := pageCeil_spec (2 ^ k) buf.capacity.toNat hP
  have hcast : ((2 ^ k : Nat) : Int) = 2 ^ k := by push_cast; rfl
  have hlt : pageCeil (2 ^ k) buf.capacity.toNat < 2 ^ 64 := by omega
  have hmask : 2 ^ 64 - 1 - (2 ^ k - 1) = 2 ^ 64 - 2 ^ k := by omega
  have hmod := Nat.mod_lt buf.address hP
  have hle := Nat.mod_le buf.address (2 ^ k)
  refine ⟨_, _, os, hcalls, ?_, rfl, Nat.sub_le _ _, by omega,
    Nat.dvd_of_mod_eq_zero (Nat.sub_mod_eq_zero_of_mod_eq (by simp)), ?_, ?_⟩
  · rw [hmask, land_high_mask _ k (by omega) hp]
  · rw [Nat.mod_eq_of_lt hlt]; exact hc1
  · rw [Nat.mod_eq_of_lt hlt]; omega

/-- C8 at a concrete request: 4 KiB pages, address `0x1234`, capacity `0x2001`. -/
theorem C8_rounding_expands_and_stays_aligned_witness :
    (12 ≤ 30 ∧ (sampleEnv 0).getpagesize = 2 ^ 12
      ∧ (0 ≤ (Advice.mk 3).value ∧ (Advice.mk 3).value ≤ 4)
      ∧ (DirectBuffer.mk 0x1234 0x2001).address ≠ 0
      ∧ 1 ≤ (DirectBuffer.mk 0x1234 0x2001).capacity
      ∧ (((DirectBuffer.mk 0x1234 0x2001).address : Nat) : Int)
          + (DirectBuffer.mk 0x1234 0x2001).capacity + 2 ^ 12 ≤ 2 ^ 64)
    ∧ ∃ start size os,
      osCalls (Java_com_upserve_uppend_blobs_NativeIO_madvise (sampleEnv 0)
          (some ⟨0x1234, 0x2001⟩) (some ⟨3⟩))
        = [(start, size, os)]
      ∧ start = (DirectBuffer.mk 0x1234 0x2001).address &&& (2 ^ 64 - 1 - (2 ^ 12 - 1))
      ∧ start = (DirectBuffer.mk 0x1234 0x2001).address
          - (DirectBuffer.mk 0x1234 0x2001).address % 2 ^ 12
      ∧ start ≤ (DirectBuffer.mk 0x1234 0x2001).address
      ∧ (DirectBuffer.mk 0x1234 0x2001).address - start < 2 ^ 12
      ∧ 2 ^ 12 ∣ start ∧ 2 ^ 12 ∣ size
      ∧ (DirectBuffer.mk 0x1234 0x2001).capacity ≤ (size : Int) :=
  ⟨by decide,
    C8_rounding_expands_and_stays_aligned (sampleEnv 0) ⟨0x1234, 0x2001⟩ ⟨3⟩ 12
      (by decide) (by decide) (by decide) (by decide) (by decide) (by decide)⟩

/-- C10: for a valid request whose address is already a multiple of the
power-of-two page size, the region passed to the system call starts at the
address itself and its size is the length rounded up to the next multiple of
the page size (a multiple, at least the length, less than a page above it);
the size is one page whenever the length is at most one page. -/
theorem C10_aligned_base_keeps_start (env : Env) (buf : DirectBuffer)
    (adv : Advice) (k : Nat) (hk : k ≤ 30) (hpage : env.getpagesize = 2 ^ k)
    (hadv : 0 ≤ adv.value ∧ adv.value ≤ 4)
    (hp0 : buf.address ≠ 0) (hp : buf.address < 2 ^ 64)
    (hal : 2 ^ k ∣ buf.address)
    (hlen : 1 ≤ buf.capacity) (hcap : buf.capacity < 2 ^ 63) :
    ∃ size os, osAdviceOf env adv.value = some os
      ∧ osCalls (Java_com_upserve_uppend_blobs_NativeIO_madvise env (some buf) (some adv))
        = [(buf.address, size, os)]
      ∧ size = pageCeil (2 ^ k) buf.capacity.toNat
      ∧ 2 ^ k ∣ size ∧ buf.capacity.toNat ≤ size ∧ size < buf.capacity.toNat + 2 ^ k
      ∧ (buf.capacity ≤ 2 ^ k → size = 2 ^ k) := by
  have hP : 0 < 2 ^ k := Nat.pow_pos (by decide)
  have hPle : 2 ^ k ≤ 2 ^ 30 := Nat.pow_le_pow_right (by decide) hk
  obtain ⟨os, hos, hcalls⟩ :=
    osCalls_pow_two env buf adv k hk hpage hadv hp0 hp hlen (by omega)
  obtain ⟨hc1, hc2, hc3⟩ := pageCeil_spec (2 ^ k) buf.capacity.toNat hP
  have hlt : pageCeil (2 ^ k) buf.capacity.toNat < 2 ^ 64 := by omega
  rw [Nat.mod_eq_of_lt hlt, Nat.mod_eq_zero_of_dvd hal, Nat.sub_zero] at hcalls
  refine ⟨_, os, hos, hcalls, rfl, hc1, hc2, hc3, ?_⟩
  intro hsmall
  have hcast : ((2 ^ k : Nat) : Int) = 2 ^ k := by push_cast; rfl
  obtain ⟨c, hc⟩ := hc1
  have hc0 : 0 < c := by
    rcases Nat.eq_zero_or_pos c with h | h
    · rw [h, Nat.mul_zero] at hc; omega
    · exact h
  have hc2 : c < 2 := by
    by_contra hge
    have : 2 ^ k * 2 ≤ 2 ^ k * c := Nat.mul_le_mul_left _ (by omega)
    omega
  have : c = 1 := by omega
  rw [hc, this, Nat.mul_one]

/-- C10 at the scenario of the specification: page size `0x1000`, base
`0x1000`, length `1` is advised with start `0x1000`, size `0x1000`. -/
theorem C10_aligned_base_keeps_start_witness :
    (12 ≤ 30 ∧ (sampleEnv 0).getpagesize = 2 ^ 12
      ∧ (0 ≤ (Advice.mk 0).value ∧ (Advice.mk 0).value ≤ 4)
      ∧ (DirectBuffer.mk 0x1000 1).address ≠ 0
      ∧ (DirectBuffer.mk 0x1000 1).address < 2 ^ 64
      ∧ 2 ^ 12 ∣ (DirectBuffer.mk 0x1000 1).address
      ∧ 1 ≤ (DirectBuffer.mk 0x1000 1).capacity
      ∧ (DirectBuffer.mk 0x1000 1).capacity < 2 ^ 63)
    ∧ osCalls (Java_com_upserve_uppend_blobs_NativeIO_madvise (sampleEnv 0)
        (some ⟨0x1000, 1⟩) (some ⟨0⟩))
      = [(0x1000, 0x1000, 0)] := by
  refine ⟨by decide, ?_⟩
  obtain ⟨size, os, hos, h, -, -, -, -, h1⟩ :=
    C10_aligned_base_keeps_start (sampleEnv 0) ⟨0x1000, 1⟩ ⟨0⟩ 12
      (by decide) (by decide) (by decide) (by decide) (by decide) (by decide)
      (by decide) (by decide)
  have hs : size = 2 ^ 12 := h1 (by decide)
  have ho : os = 0 := (Option.some.inj hos).symm
  rw [hs, ho] at h
  exact h

/-! ## Claims about validation and errors -/

/-- C3: the `switch` maps `0` to `MADV_NORMAL`, `1` to `POSIX_MADV_SEQUENTIAL`,
`2` to `POSIX_MADV_RANDOM`, `3` to `POSIX_MADV_WILLNEED` and `4` to
`POSIX_MADV_DONTNEED`; with buffer and advice non-null, a value in `0..4`
never raises `IllegalArgumentException`, and every value outside `0..4` raises
exactly `IllegalArgumentException` with the message
`invalid advice value: 'v'`, where the text `v` is the `%d` output for the
value and reads back as exactly that value, and no system call is issued. -/
theorem C3_advice_translation_total_and_closed (env : Env) :
    osAdviceOf env 0 = some env.MADV_NORMAL
    ∧ osAdviceOf env 1 = some env.POSIX_MADV_SEQUENTIAL
    ∧ osAdviceOf env 2 = some env.POSIX_MADV_RANDOM
    ∧ osAdviceOf env 3 = some env.POSIX_MADV_WILLNEED
    ∧ osAdviceOf env 4 = some env.POSIX_MADV_DONTNEED
    ∧ (∀ (buf : DirectBuffer) (adv : Advice), 0 ≤ adv.value ∧ adv.value ≤ 4 →
        ∀ e ∈ thrown (Java_com_upserve_uppend_blobs_NativeIO_madvise env
          (some buf) (some adv)), e.1 ≠ JClass.IllegalArgumentException)
    ∧ (∀ (buf : DirectBuffer) (adv : Advice), adv.value < 0 ∨ 4 < adv.value →
        thrown (Java_com_upserve_uppend_blobs_NativeIO_madvise env (some buf) (some adv))
          = [(JClass.IllegalArgumentException,
              "invalid advice value: '" ++ fmt_d adv.value ++ "'")]
        ∧ read_d (fmt_d adv.value) = adv.value
        ∧ osCalls (Java_com_upserve_uppend_blobs_NativeIO_madvise env
            (some buf) (some adv)) = []) := by
  refine ⟨rfl, rfl, rfl, rfl, rfl, ?_, ?_⟩
  · intro buf adv hadv e he
    obtain ⟨os, hos⟩ :=
      Option.isSome_iff_exists.mp ((osAdviceOf_isSome env adv.value).mpr hadv)
    simp only [Java_com_upserve_uppend_blobs_NativeIO_madvise, hos, findClasses,
      readAdvice] at he
    split_ifs at he <;> simp [thrown] at he <;> simp [he]
  · intro buf adv hadv
    have hnone : osAdviceOf env adv.value = none := by
      have h := osAdviceOf_isSome env adv.value
      cases hv : osAdviceOf env adv.value with
      | none => rfl
      | some os =>
        rw [hv] at h
        have := h.mp rfl
        omega
    simp [Java_com_upserve_uppend_blobs_NativeIO_madvise, hnone, findClasses,
      readAdvice, thrown, osCalls, read_d_fmt_d]

/-- C3 at concrete requests: value `3` is accepted, value `-7` is rejected
with the message `invalid advice value: '-7'`. -/
theorem C3_advice_translation_total_and_closed_witness :
    ((0 ≤ (Advice.mk 3).value ∧ (Advice.mk 3).value ≤ 4)
      ∧ ((Advice.mk (-7)).value < 0 ∨ 4 < (Advice.mk (-7)).value))
    ∧ (∀ e ∈ thrown (Java_com_upserve_uppend_blobs_NativeIO_madvise (sampleEnv 0)
          (some ⟨0x1000, 1⟩) (some ⟨3⟩)), e.1 ≠ JClass.IllegalArgumentException)
    ∧ thrown (Java_com_upserve_uppend_blobs_NativeIO_madvise (sampleEnv 0)
          (some ⟨0x1000, 1⟩) (some ⟨-7⟩))
        = [(JClass.IllegalArgumentException, "invalid advice value: '-7'")]
    ∧ read_d (fmt_d (Advice.mk (-7)).value) = (Advice.mk (-7)).value
    ∧ osCalls (Java_com_upserve_uppend_blobs_NativeIO_madvise (sampleEnv 0)
          (some ⟨0x1000, 1⟩) (some ⟨-7⟩)) = [] :=
  ⟨by decide,
    (C3_advice_translation_total_and_closed (sampleEnv 0)).2.2.2.2.2.1
      ⟨0x1000, 1⟩ ⟨3⟩ (by decide),
    (C3_advice_translation_total_and_closed (sampleEnv 0)).2.2.2.2.2.2
      ⟨0x1000, 1⟩ ⟨-7⟩ (by decide)⟩

/-- C4: a null buffer raises `NullPointerException` naming the buffer whatever
the advice argument is; a non-null buffer with a null advice raises
`NullPointerException` naming the advice; in both cases the function does
nothing but the three class lookups, the null tests and the throw, so it never
reads the advice value, never queries the buffer address or capacity, never
asks for the page size and issues no system call. -/
theorem C4_presence_validation_first :
    (∀ (env : Env) (advice : Option Advice),
      Java_com_upserve_uppend_blobs_NativeIO_madvise env none advice
        = findClasses ++ [Event.IsSameObject JArg.buffer,
            Event.ThrowNew JClass.NullPointerException "buffer argument can not be null"]
      ∧ thrown (Java_com_upserve_uppend_blobs_NativeIO_madvise env none advice)
        = [(JClass.NullPointerException, "buffer argument can not be null")]
      ∧ Untouched (Java_com_upserve_uppend_blobs_NativeIO_madvise env none advice))
    ∧ (∀ (env : Env) (buf : DirectBuffer),
      Java_com_upserve_uppend_blobs_NativeIO_madvise env (some buf) none
        = findClasses ++ [Event.IsSameObject JArg.buffer, Event.IsSameObject JArg.advice,
            Event.ThrowNew JClass.NullPointerException "advice argument can not be null"]
      ∧ thrown (Java_com_upserve_uppend_blobs_NativeIO_madvise env (some buf) none)
        = [(JClass.NullPointerException, "advice argument can not be null")]
      ∧ Untouched (Java_com_upserve_uppend_blobs_NativeIO_madvise env (some buf) none)) := by
  constructor
  · intro env advice
    refine ⟨rfl, rfl, ?_⟩
    simp [Untouched, Java_com_upserve_uppend_blobs_NativeIO_madvise, findClasses, osCalls]
  · intro env buf
    refine ⟨rfl, rfl, ?_⟩
    simp [Untouched, Java_com_upserve_uppend_blobs_NativeIO_madvise, findClasses, osCalls]

/-- C6: for a call with non-null arguments, an advice value in `0..4`, a
non-null address and a capacity of at least `1`, the system call is issued
exactly once, on the computed region and with the constant the advice value
translates to; if it returns `0` no exception is raised, and if it returns
`r ≠ 0` exactly one `IOException` is raised, with the message
`system madvice call failed: 'r'`, where the text `r` is the `%d` output for
the returned value and reads back as exactly that value. -/
theorem C6_outcome_decided_by_os_result (env : Env) (buf : DirectBuffer)
    (adv : Advice) (hadv : 0 ≤ adv.value ∧ adv.value ≤ 4)
    (hp0 : buf.address ≠ 0) (hlen : 1 ≤ buf.capacity) (hcap : buf.capacity < 2 ^ 63) :
    ∃ os, osAdviceOf env adv.value = some os
      ∧ osCalls (Java_com_upserve_uppend_blobs_NativeIO_madvise env (some buf) (some adv))
        = [((computedRegion env buf).1, (computedRegion env buf).2, os)]
      ∧ (env.madvise (computedRegion env buf).1 (computedRegion env buf).2 os = 0 →
          thrown (Java_com_upserve_uppend_blobs_NativeIO_madvise env (some buf) (some adv))
            = [])
      ∧ (env.madvise (computedRegion env buf).1 (computedRegion env buf).2 os ≠ 0 →
          thrown (Java_com_upserve_uppend_blobs_NativeIO_madvise env (some buf) (some adv))
            = [(JClass.IOException, "system madvice call failed: '"
                ++ fmt_d (env.madvise (computedRegion env buf).1
                    (computedRegion env buf).2 os)
                ++ "'")])
      ∧ read_d (fmt_d (env.madvise (computedRegion env buf).1 (computedRegion env buf).2 os))
          = env.madvise (computedRegion env buf).1 (computedRegion env buf).2 os := by
  obtain ⟨os, hos⟩ := Option.isSome_iff_exists.mp ((osAdviceOf_isSome env adv.value).mpr hadv)
  have hsz : jlong_to_size_t buf.capacity ≠ 0 := by
    rw [size_of_capacity buf.capacity hlen (by omega)]; omega
  refine ⟨os, hos, osCalls_of_valid env buf adv os hos hp0 hsz, ?_, ?_, read_d_fmt_d _⟩
  · intro hr
    rw [thrown_of_valid env buf adv os hos hp0 hsz, if_neg (by simp [hr])]
  · intro hr
    rw [thrown_of_valid env buf adv os hos hp0 hsz, if_pos hr]

/-- C6 at concrete requests on 4 KiB pages, address `0x1234`, capacity `0x2001`,
advice value `3`: when the system call returns `0` nothing is raised, when it
returns `-1` the message is `system madvice call failed: '-1'`. -/
theorem C6_outcome_decided_by_os_result_witness :
    ((0 ≤ (Advice.mk 3).value ∧ (Advice.mk 3).value ≤ 4)
      ∧ (DirectBuffer.mk 0x1234 0x2001).address ≠ 0
      ∧ 1 ≤ (DirectBuffer.mk 0x1234 0x2001).capacity
      ∧ (DirectBuffer.mk 0x1234 0x2001).capacity < 2 ^ 63)
    ∧ thrown (Java_com_upserve_uppend_blobs_NativeIO_madvise (sampleEnv 0)
        (some ⟨0x1234, 0x2001⟩) (some ⟨3⟩)) = []
    ∧ thrown (Java_com_upserve_uppend_blobs_NativeIO_madvise (sampleEnv (-1))
        (some ⟨0x1234, 0x2001⟩) (some ⟨3⟩))
      = [(JClass.IOException, "system madvice call failed: '-1'")] := by
  refine ⟨by decide, ?_, ?_⟩
  · obtain ⟨os, -, -, h0, -, -⟩ :=
      C6_outcome_decided_by_os_result (sampleEnv 0) ⟨0x1234, 0x2001⟩ ⟨3⟩
        (by decide) (by decide) (by decide) (by decide)
    exact h0 rfl
  · obtain ⟨os, -, -, -, h1, -⟩ :=
      C6_outcome_decided_by_os_result (sampleEnv (-1)) ⟨0x1234, 0x2001⟩ ⟨3⟩
        (by decide) (by decide) (by decide) (by decide)
    have h : thrown (Java_com_upserve_uppend_blobs_NativeIO_madvise (sampleEnv (-1))
        (some ⟨0x1234, 0x2001⟩) (some ⟨3⟩))
      = [(JClass.IOException, "system madvice call failed: '" ++ fmt_d (-1) ++ "'")] :=
      h1 (by show (-1 : Int) ≠ 0; decide)
    exact h.trans (by decide)

/-- C7: for every input the function issues no system call or exactly one;
a system call that is issued is the call on the computed region; a call that
issues none raises an exception; and a null buffer, a null advice, an advice
value outside `0..4`, a `NULL` address and a zero `size_t` capacity each end
the call with their exception and without any system call. -/
theorem C7_no_partial_success (env : Env) (buffer : Option DirectBuffer)
    (advice : Option Advice) :
    (osCalls (Java_com_upserve_uppend_blobs_NativeIO_madvise env buffer advice) = []
      ∨ ∃ buf adv os, buffer = some buf ∧ advice = some adv
        ∧ osAdviceOf env adv.value = some os
        ∧ osCalls (Java_com_upserve_uppend_blobs_NativeIO_madvise env buffer advice)
          = [((computedRegion env buf).1, (computedRegion env buf).2, os)])
    ∧ (osCalls (Java_com_upserve_uppend_blobs_NativeIO_madvise env buffer advice) = [] →
        thrown (Java_com_upserve_uppend_blobs_NativeIO_madvise env buffer advice) ≠ [])
    ∧ (buffer = none →
        thrown (Java_com_upserve_uppend_blobs_NativeIO_madvise env buffer advice)
          = [(JClass.NullPointerException, "buffer argument can not be null")]
        ∧ osCalls (Java_com_upserve_uppend_blobs_NativeIO_madvise env buffer advice) = [])
    ∧ (buffer ≠ none → advice = none →
        thrown (Java_com_upserve_uppend_blobs_NativeIO_madvise env buffer advice)
          = [(JClass.NullPointerException, "advice argument can not be null")]
        ∧ osCalls (Java_com_upserve_uppend_blobs_NativeIO_madvise env buffer advice) = [])
    ∧ (∀ buf adv, buffer = some buf → advice = some adv →
        osAdviceOf env adv.value = none →
        thrown (Java_com_upserve_uppend_blobs_NativeIO_madvise env buffer advice)
          = [(JClass.IllegalArgumentException,
              "invalid advice value: '" ++ fmt_d adv.value ++ "'")]
        ∧ osCalls (Java_com_upserve_uppend_blobs_NativeIO_madvise env buffer advice) = [])
    ∧ (∀ buf adv, buffer = some buf → advice = some adv →
        osAdviceOf env adv.value ≠ none →
        buf.address = 0 ∨ jlong_to_size_t buf.capacity = 0 →
        thrown (Java_com_upserve_uppend_blobs_NativeIO_madvise env buffer advice)
          = [(JClass.IOException, env.strerror env.errno)]
        ∧ osCalls (Java_com_upserve_uppend_blobs_NativeIO_madvise env buffer advice)
          = []) := by
  cases buffer with
  | none =>
    simp [Java_com_upserve_uppend_blobs_NativeIO_madvise, findClasses, osCalls, thrown]
  | some buf =>
    cases advice with
    | none =>
      simp [Java_com_upserve_uppend_blobs_NativeIO_madvise, findClasses, osCalls, thrown]
    | some adv =>
      cases hos : osAdviceOf env adv.value with
      | none =>
        simp [Java_com_upserve_uppend_blobs_NativeIO_madvise, findClasses, readAdvice,
          osCalls, thrown, hos]
      | some os =>
        by_cases hp : buf.address = 0
        · simp [Java_com_upserve_uppend_blobs_NativeIO_madvise, findClasses, readAdvice,
            osCalls, thrown, hos, hp]
        · by_cases hsz : jlong_to_size_t buf.capacity = 0
          · simp [Java_com_upserve_uppend_blobs_NativeIO_madvise, findClasses, readAdvice,
              osCalls, thrown, hos, hp, hsz]
          · rw [osCalls_of_valid env buf adv os hos hp hsz]
            simp [hos, hp, hsz]

/-- C7 at concrete requests: a `NULL` address issues no system call and raises
`IOException`; a valid request issues the one call on the computed region. -/
theorem C7_no_partial_success_witness :
    (thrown (Java_com_upserve_uppend_blobs_NativeIO_madvise (sampleEnv 0)
        (some ⟨0, 0x2001⟩) (some ⟨3⟩)) = [(JClass.IOException, "Invalid argument")]
      ∧ osCalls (Java_com_upserve_uppend_blobs_NativeIO_madvise (sampleEnv 0)
        (some ⟨0, 0x2001⟩) (some ⟨3⟩)) = [])
    ∧ (osCalls (Java_com_upserve_uppend_blobs_NativeIO_madvise (sampleEnv 0)
        (some ⟨0x1234, 0x2001⟩) (some ⟨3⟩)) = []
      ∨ ∃ buf adv os, some (DirectBuffer.mk 0x1234 0x2001) = some buf
        ∧ some (Advice.mk 3) = some adv
        ∧ osAdviceOf (sampleEnv 0) adv.value = some os
        ∧ osCalls (Java_com_upserve_uppend_blobs_NativeIO_madvise (sampleEnv 0)
            (some ⟨0x1234, 0x2001⟩) (some ⟨3⟩))
          = [((computedRegion (sampleEnv 0) buf).1,
              (computedRegion (sampleEnv 0) buf).2, os)]) :=
  ⟨(C7_no_partial_success (sampleEnv 0) (some ⟨0, 0x2001⟩) (some ⟨3⟩)).2.2.2.2.2
      ⟨0, 0x2001⟩ ⟨3⟩ rfl rfl (by decide) (Or.inl rfl),
    (C7_no_partial_success (sampleEnv 0) (some ⟨0x1234, 0x2001⟩) (some ⟨3⟩)).1⟩

/-- C9, refuted on the code: in one environment (same `errno`), a buffer whose
address is `NULL` and a buffer whose address resolves but whose capacity is
`0` raise the same exception, `IOException` with the same message. -/
theorem C9_buffer_failures_indistinguishable :
    thrown (Java_com_upserve_uppend_blobs_NativeIO_madvise (sampleEnv 0)
        (some ⟨0, 0x1000⟩) (some ⟨0⟩))
      = thrown (Java_com_upserve_uppend_blobs_NativeIO_madvise (sampleEnv 0)
        (some ⟨0x1000, 0⟩) (some ⟨0⟩))
    ∧ thrown (Java_com_upserve_uppend_blobs_NativeIO_madvise (sampleEnv 0)
        (some ⟨0, 0x1000⟩) (some ⟨0⟩)) = [(JClass.IOException, "Invalid argument")] := by
  decide

/-- C9 as amended: for every call with non-null arguments and a valid advice
value, the failure for an unresolvable address (`NULL`) and the failure for a
resolved address with capacity `0` are the same error kind: each raises
exactly one `IOException` whose message is `strerror(errno)`, so for the same
OS error state the two results are equal; neither issues a system call, and
the two calls differ only in that the second has queried the capacity: the
first does the class lookups, the null tests, the read of the advice value,
the address query, `strerror` and the throw, and the second does exactly the
same with the capacity query inserted after the address query. -/
theorem C9_buffer_failures_share_one_error (env : Env) (b1 b2 : DirectBuffer)
    (adv : Advice) (hadv : 0 ≤ adv.value ∧ adv.value ≤ 4)
    (h1 : b1.address = 0) (h2 : b2.address ≠ 0) (h3 : b2.capacity = 0) :
    thrown (Java_com_upserve_uppend_blobs_NativeIO_madvise env (some b1) (some adv))
      = [(JClass.IOException, env.strerror env.errno)]
    ∧ thrown (Java_com_upserve_uppend_blobs_NativeIO_madvise env (some b2) (some adv))
      = [(JClass.IOException, env.strerror env.errno)]
    ∧ osCalls (Java_com_upserve_uppend_blobs_NativeIO_madvise env (some b1) (some adv)) = []
    ∧ osCalls (Java_com_upserve_uppend_blobs_NativeIO_madvise env (some b2) (some adv)) = []
    ∧ Event.GetDirectBufferCapacity
        ∉ Java_com_upserve_uppend_blobs_NativeIO_madvise env (some b1) (some adv)
    ∧ Event.GetDirectBufferCapacity
        ∈ Java_com_upserve_uppend_blobs_NativeIO_madvise env (some b2) (some adv)
    ∧ Java_com_upserve_uppend_blobs_NativeIO_madvise env (some b1) (some adv)
      = findClasses ++ [Event.IsSameObject JArg.buffer, Event.IsSameObject JArg.advice]
        ++ readAdvice
        ++ [Event.GetDirectBufferAddress,
            Event.strerror, Event.ThrowNew JClass.IOException (env.strerror env.errno)]
    ∧ Java_com_upserve_uppend_blobs_NativeIO_madvise env (some b2) (some adv)
      = findClasses ++ [Event.IsSameObject JArg.buffer, Event.IsSameObject JArg.advice]
        ++ readAdvice
        ++ [Event.GetDirectBufferAddress, Event.GetDirectBufferCapacity,
            Event.strerror, Event.ThrowNew JClass.IOException (env.strerror env.errno)] := by
  obtain ⟨os, hos⟩ := Option.isSome_iff_exists.mp ((osAdviceOf_isSome env adv.value).mpr hadv)
  have hz : jlong_to_size_t b2.capacity = 0 := by rw [h3]; decide
  simp [Java_com_upserve_uppend_blobs_NativeIO_madvise, findClasses, readAdvice,
    osCalls, thrown, hos, h1, h2, hz]

/-- C9 as amended, at a `NULL` address and at address `0x1000` with capacity `0`. -/
theorem C9_buffer_failures_share_one_error_witness :
    ((0 ≤ (Advice.mk 0).value ∧ (Advice.mk 0).value ≤ 4)
      ∧ (DirectBuffer.mk 0 0x1000).address = 0
      ∧ (DirectBuffer.mk 0x1000 0).address ≠ 0
      ∧ (DirectBuffer.mk 0x1000 0).capacity = 0)
    ∧ thrown (Java_com_upserve_uppend_blobs_NativeIO_madvise (sampleEnv 0)
        (some ⟨0, 0x1000⟩) (some ⟨0⟩)) = [(JClass.IOException, "Invalid argument")]
    ∧ thrown (Java_com_upserve_uppend_blobs_NativeIO_madvise (sampleEnv 0)
        (some ⟨0x1000, 0⟩) (some ⟨0⟩)) = [(JClass.IOException, "Invalid argument")] :=
  ⟨by decide,
    (C9_buffer_failures_share_one_error (sampleEnv 0) ⟨0, 0x1000⟩ ⟨0x1000, 0⟩ ⟨0⟩
      (by decide) rfl (by decide) rfl).1,
    (C9_buffer_failures_share_one_error (sampleEnv 0) ⟨0, 0x1000⟩ ⟨0x1000, 0⟩ ⟨0⟩
      (by decide) rfl (by decide) rfl).2.1⟩

end NativeIO
